import Mathlib

/-!
A shallow embedding of the NNTP archiver (`main.go` of `tgeek77/usenet_archiver`).

The embedding models the pure reply-decoding logic of the client and the
control flow of the `saveToMbox` fetch loop.  Network effects are made
explicit: a multi-line reply is the list of raw lines the server sends, a
fetch outcome is either a transport error or a status line plus block lines,
and the loop consumes an oracle describing each outcome.  Go library
functions used by the code (`strings.TrimSpace`, `strings.Split`,
`strings.HasPrefix`, `strings.TrimPrefix`, `fmt.Sscanf` with verb d,
`time.Parse`) are modelled faithfully below.
-/

namespace UsenetArchiver

/-- Whitespace predicate of Go `unicode.IsSpace`, used by `strings.TrimSpace`:
tab through carriage return, space, next line, no-break space, and the
Unicode White_Space code points. -/
def goIsSpace (c : Char) : Bool :=
  (9 ≤ c.toNat && c.toNat ≤ 13) || c.toNat = 32 || c.toNat = 133 || c.toNat = 160 ||
  c.toNat = 5760 || (8192 ≤ c.toNat && c.toNat ≤ 8202) || c.toNat = 8232 ||
  c.toNat = 8233 || c.toNat = 8239 || c.toNat = 8287 || c.toNat = 12288

/-- Drop leading and trailing whitespace characters from a character list. -/
def trimList (cs : List Char) : List Char :=
  ((cs.dropWhile goIsSpace).reverse.dropWhile goIsSpace).reverse

/-- Go `strings.TrimSpace`. -/
def goTrimSpace (s : String) : String :=
  String.mk (trimList s.data)

/-- Go `strings.HasPrefix s p` (byte-level, which for ASCII needles on valid
UTF-8 coincides with the character-level test modelled here). -/
def begins (s p : String) : Bool :=
  p.data.isPrefixOf s.data

/-- Go `strings.TrimPrefix s p`. -/
def trimPre (s p : String) : String :=
  if p.data.isPrefixOf s.data then String.mk (s.data.drop p.data.length) else s

/-- Go `strings.Split s sep` for a one-character separator: splits at every
occurrence of the separator, keeping empty fields, and never returns an
empty list. -/
def splitCh (sep : Char) : List Char → List (List Char)
  | [] => [[]]
  | c :: cs =>
    if c = sep then [] :: splitCh sep cs
    else
      match splitCh sep cs with
      | [] => [[c]]
      | f :: r => (c :: f) :: r

/-- String wrapper for `splitCh`. -/
def splitStr (sep : Char) (s : String) : List String :=
  (splitCh sep s.data).map String.mk

/-- Numeric value of a digit string (most significant first). -/
def digitsToNat (ds : List Char) : Nat :=
  ds.foldl (fun a c => a * 10 + (c.toNat - 48)) 0

/-- The leading run of decimal digits and its value; `none` when the list
does not begin with a digit. -/
def leadDigitsVal (cs : List Char) : Option Nat :=
  let ds := cs.takeWhile Char.isDigit
  if ds = [] then none else some (digitsToNat ds)

/-- Characters the `fmt` scanner skips before a numeric verb (whitespace
other than newline; a newline in the input of `Sscanf` is an error, which
for verb d means no value is stored). -/
def scanSkip (c : Char) : Bool :=
  goIsSpace c && !(c = Char.ofNat 10)

/-- Go `fmt.Sscanf(s, d-verb, addr)`: skip leading spaces, read an optional
sign and a run of decimal digits; `none` when no digits follow (or on
64-bit overflow), in which case the Go variable keeps its zero value. -/
def sscanfD (s : String) : Option Int :=
  let cs := s.data.dropWhile scanSkip
  match cs with
  | '-' :: rest =>
    (leadDigitsVal rest).bind fun n =>
      if n ≤ 2 ^ 63 then some (-(n : Int)) else none
  | '+' :: rest =>
    (leadDigitsVal rest).bind fun n =>
      if n ≤ 2 ^ 63 - 1 then some (n : Int) else none
  | rest =>
    (leadDigitsVal rest).bind fun n =>
      if n ≤ 2 ^ 63 - 1 then some (n : Int) else none

/-- The multi-line block reader shared by `GetHeaders` and `Article`:
each received line is `TrimSpace`d, a trimmed lone dot ends the block, and
the trimmed lines before it are kept in order.  `none` models the read
error raised when the stream ends with no terminator. -/
def readBlock : List String → Option (List String)
  | [] => none
  | l :: rest =>
    let t := goTrimSpace l
    if t = "." then some []
    else (readBlock rest).map fun ls => t :: ls

/-- First tab-delimited field of an overview line (`strings.Split` on tab
never returns an empty list, so `parts[0]` always exists). -/
def firstField (l : String) : String :=
  (splitStr (Char.ofNat 9) l).headD ""

/-- Article id a single overview line contributes: the `Sscanf` result of
its first field, or the untouched zero value when the field does not
parse. -/
def lineId (l : String) : Int :=
  (sscanfD (firstField l)).getD 0

/-- `GetHeaders` (the XOVER decoder), applied to the status line and the
raw lines of the reply: requires a 224 status, then reads the block and
marks `lineId` of every block line.  The resulting list of ids models the
`map[int]bool`: an id is present exactly when it occurs in the list. -/
def GetHeaders (resp : String) (lines : List String) : Option (List Int) :=
  if begins resp "224" then (readBlock lines).map (List.map lineId)
  else none

/-- Join article lines with newlines (`strings.Join(content, newline)`). -/
def joinLines (ls : List String) : String :=
  String.intercalate "\n" ls

/-- `Article` (the ARTICLE decoder), applied to the status line and the raw
lines that follow: a non-220 status returns empty content and the status
line (not an error); a 220 status reads the block and joins the trimmed
lines.  `none` models a transport error while reading the block. -/
def Article (resp : String) (lines : List String) : Option (String × String) :=
  if begins resp "220" then (readBlock lines).map fun ls => (joinLines ls, resp)
  else some ("", resp)

/-- `Group` (the GROUP decoder), applied to the status line: requires a 211
status and at least four space-separated fields, then scans fields 2 and 3
as the low and high watermarks (zero when a field does not parse). -/
def Group (resp : String) : Except String (Int × Int) :=
  if begins resp "211" then
    let parts := splitStr (Char.ofNat 32) resp
    if parts.length < 4 then Except.error ("invalid GROUP response: " ++ resp)
    else Except.ok ((sscanfD (parts.getD 2 "")).getD 0, (sscanfD (parts.getD 3 "")).getD 0)
  else Except.error ("failed to select group: " ++ resp)

/-- A calendar instant in UTC.  All timestamps the program compares carry a
zero zone offset (`time.Parse` attaches offset 0 to unrecognized zone
abbreviations and to the date-only layout), so instant order is the
lexicographic order on the fields. -/
structure Timestamp where
  year : Nat
  month : Nat
  day : Nat
  hour : Nat
  minute : Nat
  second : Nat
  deriving DecidableEq, Repr

/-- `Time.Before`: lexicographic strict order on UTC timestamps. -/
def tsLt (a b : Timestamp) : Bool :=
  a.year < b.year || (a.year = b.year &&
    (a.month < b.month || (a.month = b.month &&
      (a.day < b.day || (a.day = b.day &&
        (a.hour < b.hour || (a.hour = b.hour &&
          (a.minute < b.minute || (a.minute = b.minute &&
            a.second < b.second)))))))))

/-- Leap-year rule used by `time.daysIn`. -/
def isLeap (y : Nat) : Bool :=
  y % 4 = 0 && (y % 100 ≠ 0 || y % 400 = 0)

/-- Days in a month (`time.daysIn`), month given 1-based. -/
def daysIn (month y : Nat) : Nat :=
  if month = 2 then (if isLeap y then 29 else 28)
  else if month = 4 || month = 6 || month = 9 || month = 11 then 30
  else 31

/-- Case-insensitive match of one name against the head of the input
(`time` package lookup is ASCII case-insensitive); returns the rest. -/
def matchNameCI : List Char → List Char → Option (List Char)
  | [], cs => some cs
  | _ :: _, [] => none
  | p :: ps, c :: cs =>
    if p.toLower = c.toLower then matchNameCI ps cs else none

/-- Index of the first name in the table matching the head of the input,
with the rest of the input (`time` package `lookup`). -/
def lookupName (names : List String) (cs : List Char) : Option (Nat × List Char) :=
  match names with
  | [] => none
  | n :: rest =>
    match matchNameCI n.data cs with
    | some cs2 => some (0, cs2)
    | none => (lookupName rest cs).map fun p => (p.1 + 1, p.2)

/-- Exactly `k` leading digits and their value (`getnum` with fixed width). -/
def fixedDigits (k : Nat) (cs : List Char) : Option (Nat × List Char) :=
  let ds := cs.take k
  if ds.length = k && ds.all Char.isDigit then some (digitsToNat ds, cs.drop k)
  else none

/-- One or two leading digits and their value (`getnum` without fixed
width, as for the hour in the RFC 1123 layout). -/
def num12 (cs : List Char) : Option (Nat × List Char) :=
  match cs with
  | c1 :: c2 :: rest =>
    if c1.isDigit then
      if c2.isDigit then some (digitsToNat [c1, c2], rest)
      else some (digitsToNat [c1], c2 :: rest)
    else none
  | [c1] => if c1.isDigit then some (digitsToNat [c1], []) else none
  | [] => none

/-- A literal layout character (`time` package `skip` on a non-space). -/
def litCh (c : Char) (cs : List Char) : Option (List Char) :=
  match cs with
  | [] => none
  | x :: rest => if x = c then some rest else none

/-- A space in the layout: requires at least one space in the value and
consumes the whole run (`time` package `skip` on a space). -/
def spaces1 (cs : List Char) : Option (List Char) :=
  match cs with
  | ' ' :: rest => some (rest.dropWhile (· = ' '))
  | _ => none

/-- The zone abbreviation ending an RFC 1123 value, which must consume the
remaining input: the common cases of `time.parseTimeZone` (GMT and UT, a
three-letter upper-case abbreviation, or a four-letter one ending in T),
all attached at offset 0 as `time.Parse` does for non-local zones. -/
def zoneAbbrev (cs : List Char) : Bool :=
  cs = "UT".data || cs = "GMT".data ||
  (cs.length = 3 && cs.all Char.isUpper) ||
  (cs.length = 4 && cs.all Char.isUpper && cs.getLast? = some 'T')

/-- Short weekday names of the `time` package. -/
def shortDayNames : List String :=
  ["Sun", "Mon", "Tue", "Wed", "Thu", "Fri", "Sat"]

/-- Short month names of the `time` package. -/
def shortMonthNames : List String :=
  ["Jan", "Feb", "Mar", "Apr", "May", "Jun", "Jul", "Aug", "Sep", "Oct", "Nov", "Dec"]

/-- `time.Parse(time.RFC1123, s)`: layout `Mon, 02 Jan 2006 15:04:05 MST`.
The weekday is checked for syntax but otherwise unused; ranges are
validated as `time.Parse` does. -/
def parseRFC1123 (s : String) : Option Timestamp := do
  let cs := s.data
  let (_, cs) ← lookupName shortDayNames cs
  let cs ← litCh ',' cs
  let cs ← spaces1 cs
  let (d, cs) ← fixedDigits 2 cs
  let cs ← spaces1 cs
  let (m0, cs) ← lookupName shortMonthNames cs
  let cs ← spaces1 cs
  let (y, cs) ← fixedDigits 4 cs
  let cs ← spaces1 cs
  let (h, cs) ← num12 cs
  let cs ← litCh ':' cs
  let (mi, cs) ← fixedDigits 2 cs
  let cs ← litCh ':' cs
  let (sec, cs) ← fixedDigits 2 cs
  let cs ← spaces1 cs
  if zoneAbbrev cs && h ≤ 23 && mi ≤ 59 && sec ≤ 59 && 1 ≤ d && d ≤ daysIn (m0 + 1) y then
    some ⟨y, m0 + 1, d, h, mi, sec⟩
  else none

/-- `time.Parse(dateLayout, s)` for the flag layout `2006-01-02`: a
date-only timestamp at midnight UTC, with range validation. -/
def parseDateOnly (s : String) : Option Timestamp := do
  let cs := s.data
  let (y, cs) ← fixedDigits 4 cs
  let cs ← litCh '-' cs
  let (m, cs) ← fixedDigits 2 cs
  let cs ← litCh '-' cs
  let (d, cs) ← fixedDigits 2 cs
  if cs = [] && 1 ≤ m && m ≤ 12 && 1 ≤ d && d ≤ daysIn m y then
    some ⟨y, m, d, 0, 0, 0⟩
  else none

/-- The date-extraction step of `saveToMbox`: split the article text on
newlines, take the first line beginning `Date:`, strip the tag and parse
the remainder as RFC 1123; on a missing or unparsable header the current
wall-clock time `now` stands in. -/
def parseArticleDate (now : Timestamp) (content : String) : Timestamp :=
  match (splitStr (Char.ofNat 10) content).find? (fun line => begins line "Date:") with
  | some line =>
    match parseRFC1123 (trimPre line "Date:") with
    | some d => d
    | none => now
  | none => now

/-- The date-range filter of `saveToMbox`: an article is kept unless its
timestamp is strictly before a configured start date or strictly after a
configured end date. -/
def keepArticle (now : Timestamp) (sd ed : Option Timestamp) (content : String) : Bool :=
  let ad := parseArticleDate now content
  (match sd with
   | some s => !(tsLt ad s)
   | none => true) &&
  (match ed with
   | some e => !(tsLt e ad)
   | none => true)

/-- Outcome of one `client.Article` exchange as seen on the wire: a
transport-level failure, or a status line together with the raw lines that
follow it. -/
inductive ArticleOutcome where
  | transErr : ArticleOutcome
  | reply : String → List String → ArticleOutcome

/-- The content `client.Article` yields for an outcome: `none` on a
transport error (including an unterminated block, which surfaces as a read
error), `some` of the joined trimmed block on a 220 status, and `some`
empty content on any other status. -/
def articleResult : ArticleOutcome → Option String
  | ArticleOutcome.transErr => none
  | ArticleOutcome.reply s lines => (Article s lines).map Prod.fst

/-- Observable events of one `saveToMbox` run: an ARTICLE request issued,
a reconnect attempt, a record appended to the mbox file, and a flush
(`mboxFile.Sync`). -/
inductive Event where
  | fetch : Int → Event
  | reconnectAttempt : Event
  | append : Int → Event
  | flush : Event
  deriving DecidableEq, Repr

/-- Environment of one `saveToMbox` run: the per-id ARTICLE outcome, the
outcome of the n-th reconnect attempt, the overview index (an id is
present exactly when listed), the optional date bounds, and the current
wall-clock time. -/
structure LoopEnv where
  fetch : Int → ArticleOutcome
  reconnect : Nat → Bool
  existing : List Int
  startDate : Option Timestamp
  endDate : Option Timestamp
  now : Timestamp

/-- The fetch loop of `saveToMbox` over a list of remaining ids, carrying
the number of reconnect attempts made so far.  Returns the event trace and
whether the run aborted (`reconnect failed` is the only abort inside the
loop).  Ids absent from the overview are skipped without a fetch; a
transport error triggers exactly one reconnect attempt and the failed id
is not retried; empty content and date-filtered articles are skipped;
otherwise the record is appended and flushed. -/
def runLoop (env : LoopEnv) : List Int → Nat → List Event × Bool
  | [], _ => ([], false)
  | id :: rest, rc =>
    if env.existing.contains id then
      match articleResult (env.fetch id) with
      | none =>
        if env.reconnect rc then
          let r := runLoop env rest (rc + 1)
          (Event.fetch id :: Event.reconnectAttempt :: r.1, r.2)
        else ([Event.fetch id, Event.reconnectAttempt], true)
      | some content =>
        if content = "" then
          let r := runLoop env rest rc
          (Event.fetch id :: r.1, r.2)
        else if keepArticle env.now env.startDate env.endDate content then
          let r := runLoop env rest rc
          (Event.fetch id :: Event.append id :: Event.flush :: r.1, r.2)
        else
          let r := runLoop env rest rc
          (Event.fetch id :: r.1, r.2)
    else runLoop env rest rc

/-- The descending id sequence of the Go loop
`for articleID := last; articleID >= first; articleID--`, generated
structurally from the length of the range. -/
def idsDescAux : Nat → Int → List Int
  | 0, _ => []
  | n + 1, last => last :: idsDescAux n (last - 1)

/-- Ids visited by the loop: `last, last-1, ..., first` (empty when
`last < first`). -/
def idsDesc (first last : Int) : List Int :=
  idsDescAux (last + 1 - first).toNat last

/-- One whole `saveToMbox` fetch phase: the loop over `idsDesc`, starting
with no reconnect attempts made. -/
def saveToMboxRun (env : LoopEnv) (first last : Int) : List Event × Bool :=
  runLoop env (idsDesc first last) 0

/-- The `connect` handshake, applied to the credentials and the incoming
lines in arrival order (greeting first).  Returns the commands sent and
the result; authentication runs only when both credentials are non-empty,
requires a 281 on the reply to the password step, and on success sends
`MODE READER` and discards its reply. -/
def connect (username password : String) (incoming : List String) : List String × Except String Unit :=
  match incoming with
  | [] => ([], Except.error "welcome message error")
  | _greeting :: afterGreeting =>
    if username ≠ "" && password ≠ "" then
      match afterGreeting with
      | [] => (["AUTHINFO USER " ++ username], Except.error "user auth error")
      | _userResp :: afterUser =>
        match afterUser with
        | [] => (["AUTHINFO USER " ++ username, "AUTHINFO PASS " ++ password],
                 Except.error "pass auth error")
        | passResp :: afterPass =>
          if !(begins passResp "281") then
            (["AUTHINFO USER " ++ username, "AUTHINFO PASS " ++ password],
             Except.error ("authentication failed: " ++ passResp))
          else
            match afterPass with
            | [] => (["AUTHINFO USER " ++ username, "AUTHINFO PASS " ++ password,
                      "MODE READER"], Except.error "mode reader error")
            | _modeResp :: _ =>
              (["AUTHINFO USER " ++ username, "AUTHINFO PASS " ++ password,
                "MODE READER"], Except.ok ())
    else ([], Except.ok ())

/-- Modelled from the spec claim wording for comparison with `Article`:
the raw lines up to but not including the terminating lone-dot line,
joined by newlines, with no trimming of the retained lines. -/
def specArticleText (lines : List String) : String :=
  joinLines (lines.takeWhile (fun l => l != "."))

/-- Absence of leading and trailing whitespace in a string. -/
def noEdgeSpace (s : String) : Bool :=
  (match s.data.head? with
   | some c => !goIsSpace c
   | none => true) &&
  (match s.data.getLast? with
   | some c => !goIsSpace c
   | none => true)

section BlockLemmas

lemma head_dropWhile_false {p : Char → Bool} :
    ∀ (l : List Char) (c : Char), (l.dropWhile p).head? = some c → p c = false := by
  intro l
  induction l with
  | nil => intro c h; simp [List.dropWhile] at h
  | cons a t ih =>
    intro c h
    by_cases hp : p a
    · rw [List.dropWhile_cons, if_pos hp] at h
      exact ih c h
    · rw [List.dropWhile_cons, if_neg hp] at h
      simp at h
      rw [← h]
      exact Bool.eq_false_iff.mpr hp

lemma getLast_dropWhile {p : Char → Bool} :
    ∀ (l : List Char) (c : Char), (l.dropWhile p).getLast? = some c → l.getLast? = some c := by
  intro l
  induction l with
  | nil => intro c h; simp [List.dropWhile] at h
  | cons a t ih =>
    intro c h
    by_cases hp : p a
    · rw [List.dropWhile_cons, if_pos hp] at h
      have ht := ih c h
      cases t with
      | nil => simp [List.dropWhile] at h
      | cons b u => rw [List.getLast?_cons_cons]; exact ht
    · rw [List.dropWhile_cons, if_neg hp] at h
      exact h

lemma trimmed_noEdgeSpace (s : String) : noEdgeSpace (goTrimSpace s) = true := by
  unfold goTrimSpace trimList noEdgeSpace
  rw [Bool.and_eq_true]
  constructor
  · cases h : (((s.data.dropWhile goIsSpace).reverse.dropWhile goIsSpace).reverse).head? with
    | none => simp
    | some c =>
      rw [List.head?_reverse] at h
      have h2 := getLast_dropWhile _ c h
      rw [List.getLast?_reverse] at h2
      have h3 := head_dropWhile_false _ c h2
      simp [h3]
  · cases h : (((s.data.dropWhile goIsSpace).reverse.dropWhile goIsSpace).reverse).getLast? with
    | none => simp
    | some c =>
      rw [List.getLast?_reverse] at h
      have h3 := head_dropWhile_false _ c h
      simp [h3]

lemma readBlock_cons_dot {l : String} (rest : List String) (hd : goTrimSpace l = ".") :
    readBlock (l :: rest) = some [] := by
  simp [readBlock, hd]

lemma readBlock_cons_keep {l : String} (rest : List String) (hd : goTrimSpace l ≠ ".") :
    readBlock (l :: rest) = (readBlock rest).map fun ls => goTrimSpace l :: ls := by
  simp [readBlock, hd]

lemma readBlock_append_dot (pre : List String) (d : String) (rest : List String)
    (hd : goTrimSpace d = ".") (hpre : ∀ l ∈ pre, goTrimSpace l ≠ ".") :
    readBlock (pre ++ d :: rest) = some (pre.map goTrimSpace) := by
  induction pre with
  | nil => simpa using readBlock_cons_dot rest hd
  | cons a t ih =>
    have ha : goTrimSpace a ≠ "." := hpre a (List.mem_cons_self a t)
    have ht := ih fun l hl => hpre l (List.mem_cons_of_mem a hl)
    rw [List.cons_append, readBlock_cons_keep _ ha, ht]
    simp

lemma readBlock_eq_takeWhile :
    ∀ (lines : List String) (ls : List String), readBlock lines = some ls →
      ls = (lines.map goTrimSpace).takeWhile (fun l => l != ".") := by
  intro lines
  induction lines with
  | nil => intro ls h; simp [readBlock] at h
  | cons a t ih =>
    intro ls h
    by_cases hd : goTrimSpace a = "."
    · rw [readBlock_cons_dot t hd] at h
      simp at h
      simp [← h, List.takeWhile_cons, hd]
    · rw [readBlock_cons_keep t hd] at h
      rw [Option.map_eq_some'] at h
      obtain ⟨ls2, hrb, hls⟩ := h
      have := ih ls2 hrb
      rw [← hls, this]
      simp [List.takeWhile_cons, bne, hd]

end BlockLemmas

/-- Claim C1: the XOVER decoder evaluated at the failing input.  A block
line whose first tab-delimited field does not parse as an integer does not
contribute nothing: the `Sscanf` failure leaves the zero value, and id 0
is marked present.  Lines with well-formed leading integer fields are
marked as the claim states. -/
theorem claim1_overview_zero_default :
    GetHeaders "224 ok" ["hello", "."] = some [(0 : Int)] ∧
    sscanfD (firstField "hello") = none ∧
    GetHeaders "224 ok" ["100\tsubject stuff", "102\tx", "."] = some [100, 102] := by
  refine ⟨by decide, by decide, by decide⟩

/-- Claim C4 counterexample: on a block whose line carries leading
whitespace, `Article` does not return the exact text of the lines; the
retained line is trimmed. -/
theorem claim4_counterexample :
    Article "220 ok" [" indented", "."] = some ("indented", "220 ok") ∧
    specArticleText [" indented", "."] = " indented" ∧
    ("indented" : String) ≠ " indented" := by
  refine ⟨by decide, by decide, by decide⟩

/-- Claim C4 (amended): for every ARTICLE reply with a 220 status whose
block completes, the returned content is the text of the lines each
stripped of leading and trailing whitespace, up to but not including the
first line that trims to a lone dot, joined by newlines in original
order. -/
theorem claim4_article_text (resp : String) (lines : List String) (res : String × String)
    (h220 : begins resp "220" = true) (h : Article resp lines = some res) :
    res = (joinLines ((lines.map goTrimSpace).takeWhile (fun l => l != ".")), resp) := by
  unfold Article at h
  rw [if_pos h220, Option.map_eq_some'] at h
  obtain ⟨ls, hrb, hres⟩ := h
  rw [← hres, readBlock_eq_takeWhile lines ls hrb]

/-- Claim C4 witness: the amended theorem applied at a concrete reply. -/
theorem claim4_witness :
    ("a\nb", "220 ok") =
      (joinLines (([" a ", "b", ".", "junk"].map goTrimSpace).takeWhile (fun l => l != ".")),
       "220 ok") :=
  claim4_article_text "220 ok" [" a ", "b", ".", "junk"] ("a\nb", "220 ok")
    (by decide) (by decide)

/-- Claim C5: a valid 211 GROUP reply with at least four space-separated
fields whose low and high fields parse returns exactly that pair, and a
reply that does not start with 211 or has fewer than four fields always
fails with an error. -/
theorem claim5_group_parse :
    (∀ (resp : String) (low high : Int),
      begins resp "211" = true →
      4 ≤ (splitStr (Char.ofNat 32) resp).length →
      sscanfD ((splitStr (Char.ofNat 32) resp).getD 2 "") = some low →
      sscanfD ((splitStr (Char.ofNat 32) resp).getD 3 "") = some high →
      low ≤ high →
      Group resp = Except.ok (low, high)) ∧
    (∀ resp : String,
      begins resp "211" = false ∨ (splitStr (Char.ofNat 32) resp).length < 4 →
      ∃ msg, Group resp = Except.error msg) := by
  constructor
  · intro resp low high h211 hlen hlow hhigh _hle
    unfold Group
    rw [if_pos h211, if_neg (by omega)]
    rw [hlow, hhigh]
    rfl
  · intro resp h
    unfold Group
    rcases h with h211 | hlen
    · rw [if_neg (by simp [h211])]
      exact ⟨_, rfl⟩
    · by_cases h211 : begins resp "211" = true
      · rw [if_pos h211, if_pos hlen]
        exact ⟨_, rfl⟩
      · rw [if_neg (by simpa using h211)]
        exact ⟨_, rfl⟩

/-- Claim C5 witness: the theorem applied at a concrete valid reply and a
concrete short reply. -/
theorem claim5_witness :
    Group "211 5 100 103 misc.test" = Except.ok (100, 103) ∧
    ∃ msg, Group "211 1 2" = Except.error msg :=
  ⟨claim5_group_parse.1 "211 5 100 103 misc.test" 100 103
      (by decide) (by decide) (by decide) (by decide) (by decide),
   claim5_group_parse.2 "211 1 2" (Or.inr (by decide))⟩

/-- Number of ARTICLE requests the trace issues for a given id. -/
def fetchCount (N : Int) : List Event → Nat
  | [] => 0
  | Event.fetch m :: r => (if m = N then 1 else 0) + fetchCount N r
  | _ :: r => fetchCount N r

/-- Number of occurrences of an id in an id list. -/
def intCount (N : Int) : List Int → Nat
  | [] => 0
  | i :: r => (if i = N then 1 else 0) + intCount N r

section LoopLemmas

lemma idsDesc_cons (first last : Int) (h : first ≤ last) :
    idsDesc first last = last :: idsDesc first (last - 1) := by
  unfold idsDesc
  have h1 : (last + 1 - first).toNat = (last - first).toNat + 1 := by omega
  have h2 : (last - 1 + 1 - first).toNat = (last - first).toNat := by omega
  rw [h1, h2, idsDescAux]

lemma idsDesc_nil (first last : Int) (h : last < first) : idsDesc first last = [] := by
  unfold idsDesc
  have h1 : (last + 1 - first).toNat = 0 := by omega
  rw [h1, idsDescAux]

lemma intCount_idsDescAux_zero (N : Int) :
    ∀ (n : Nat) (last : Int), last < N → intCount N (idsDescAux n last) = 0 := by
  intro n
  induction n with
  | zero => intro last _; rfl
  | succ m ih =>
    intro last hlt
    rw [idsDescAux, intCount]
    rw [if_neg (by omega), ih (last - 1) (by omega)]

lemma intCount_idsDescAux_le_one (N : Int) :
    ∀ (n : Nat) (last : Int), intCount N (idsDescAux n last) ≤ 1 := by
  intro n
  induction n with
  | zero => intro last; exact Nat.zero_le 1
  | succ m ih =>
    intro last
    rw [idsDescAux, intCount]
    by_cases hN : last = N
    · rw [if_pos hN, intCount_idsDescAux_zero N m (last - 1) (by omega)]
    · rw [if_neg hN]
      simpa using ih (last - 1)

lemma runLoop_cons_absent {env : LoopEnv} {id : Int} {rest : List Int} {rc : Nat}
    (hex : ¬(env.existing.contains id = true)) :
    runLoop env (id :: rest) rc = runLoop env rest rc := by
  rw [runLoop, if_neg hex]

lemma runLoop_cons_err {env : LoopEnv} {id : Int} {rest : List Int} {rc : Nat}
    (hex : env.existing.contains id = true)
    (har : articleResult (env.fetch id) = none) :
    runLoop env (id :: rest) rc =
      (if env.reconnect rc = true then
        (Event.fetch id :: Event.reconnectAttempt :: (runLoop env rest (rc + 1)).1,
         (runLoop env rest (rc + 1)).2)
      else ([Event.fetch id, Event.reconnectAttempt], true)) := by
  rw [runLoop, if_pos hex, har]

lemma runLoop_cons_some {env : LoopEnv} {id : Int} {rest : List Int} {rc : Nat}
    {content : String}
    (hex : env.existing.contains id = true)
    (har : articleResult (env.fetch id) = some content) :
    runLoop env (id :: rest) rc =
      (if content = "" then
        (Event.fetch id :: (runLoop env rest rc).1, (runLoop env rest rc).2)
      else if keepArticle env.now env.startDate env.endDate content = true then
        (Event.fetch id :: Event.append id :: Event.flush :: (runLoop env rest rc).1,
         (runLoop env rest rc).2)
      else
        (Event.fetch id :: (runLoop env rest rc).1, (runLoop env rest rc).2)) := by
  rw [runLoop, if_pos hex, har]

lemma runLoop_fetchCount_le (env : LoopEnv) (N : Int) :
    ∀ (ids : List Int) (rc : Nat),
      fetchCount N (runLoop env ids rc).1 ≤ intCount N ids := by
  intro ids
  induction ids with
  | nil => intro rc; simp [runLoop, fetchCount, intCount]
  | cons id rest ih =>
    intro rc
    by_cases hex : env.existing.contains id = true
    · cases har : articleResult (env.fetch id) with
      | none =>
        rw [runLoop_cons_err hex har]
        by_cases hrc : env.reconnect rc = true
        · rw [if_pos hrc]
          have h1 := ih (rc + 1)
          simp only [fetchCount, intCount]
          split_ifs <;> omega
        · rw [if_neg hrc]
          simp only [fetchCount, intCount]
          split_ifs <;> omega
      | some content =>
        rw [runLoop_cons_some hex har]
        have h1 := ih rc
        by_cases hc : content = ""
        · rw [if_pos hc]
          simp only [fetchCount, intCount]
          split_ifs <;> omega
        · rw [if_neg hc]
          by_cases hk : keepArticle env.now env.startDate env.endDate content = true
          · rw [if_pos hk]
            simp only [fetchCount, intCount]
            split_ifs <;> omega
          · rw [if_neg hk]
            simp only [fetchCount, intCount]
            split_ifs <;> omega
    · rw [runLoop_cons_absent hex]
      calc fetchCount N (runLoop env rest rc).1 ≤ intCount N rest := ih rc
        _ ≤ intCount N (id :: rest) := by
            simp only [intCount]
            split_ifs <;> omega

end LoopLemmas

/-- Claim C2: a transport-level failure while fetching id N triggers
exactly one reconnect attempt after which the loop continues with the
remaining descending ids starting at N - 1 (so N is never retried), and
the run aborts when the reconnect attempt fails; moreover the trace never
issues a second ARTICLE request for N. -/
theorem claim2_transport_recovery (env : LoopEnv) (first N : Int) (rc : Nat)
    (hfn : first ≤ N)
    (hex : env.existing.contains N = true)
    (herr : articleResult (env.fetch N) = none) :
    (env.reconnect rc = true →
      runLoop env (idsDesc first N) rc =
        (Event.fetch N :: Event.reconnectAttempt ::
           (runLoop env (idsDesc first (N - 1)) (rc + 1)).1,
         (runLoop env (idsDesc first (N - 1)) (rc + 1)).2)) ∧
    (env.reconnect rc = false →
      runLoop env (idsDesc first N) rc = ([Event.fetch N, Event.reconnectAttempt], true)) ∧
    fetchCount N (runLoop env (idsDesc first N) rc).1 ≤ 1 := by
  refine ⟨?_, ?_, ?_⟩
  · intro hrec
    rw [idsDesc_cons first N hfn, runLoop_cons_err hex herr, if_pos hrec]
  · intro hrec
    rw [idsDesc_cons first N hfn, runLoop_cons_err hex herr,
      if_neg (by simp [hrec])]
  · calc fetchCount N (runLoop env (idsDesc first N) rc).1
        ≤ intCount N (idsDesc first N) := runLoop_fetchCount_le env N _ rc
      _ ≤ 1 := intCount_idsDescAux_le_one N _ N

/-- Environment for the witness of claim C2: article 5 fails at the
transport level, everything else succeeds, and reconnects succeed. -/
def env2 : LoopEnv where
  fetch := fun id =>
    if id = 5 then ArticleOutcome.transErr
    else ArticleOutcome.reply "220 ok" ["some body", "."]
  reconnect := fun _ => true
  existing := [3, 4, 5]
  startDate := none
  endDate := none
  now := ⟨2026, 1, 1, 0, 0, 0⟩

/-- Claim C2 witness: the theorem applied to a concrete failing run. -/
theorem claim2_witness :
    (env2.reconnect 0 = true →
      runLoop env2 (idsDesc 3 5) 0 =
        (Event.fetch 5 :: Event.reconnectAttempt ::
           (runLoop env2 (idsDesc 3 (5 - 1)) (0 + 1)).1,
         (runLoop env2 (idsDesc 3 (5 - 1)) (0 + 1)).2)) ∧
    (env2.reconnect 0 = false →
      runLoop env2 (idsDesc 3 5) 0 = ([Event.fetch 5, Event.reconnectAttempt], true)) ∧
    fetchCount 5 (runLoop env2 (idsDesc 3 5) 0).1 ≤ 1 :=
  claim2_transport_recovery env2 3 5 0 (by decide) (by decide) (by decide)

/-- Environment for claim C6: group 100..103, overview marking 100, 102
and 103 present and 101 absent, every fetch succeeding with non-empty
content, no date bounds. -/
def env6 : LoopEnv where
  fetch := fun _ => ArticleOutcome.reply "220 ok" ["From: a", "", "body", "."]
  reconnect := fun _ => true
  existing := [100, 102, 103]
  startDate := none
  endDate := none
  now := ⟨2026, 10, 12, 0, 0, 0⟩

/-- Article id of an append event, if any. -/
def appendedId : Event → Option Int
  | Event.append id => some id
  | _ => none

/-- Claim C6: on the concrete group of the claim the run finishes without
abort, its trace is exactly three fetch-append-flush groups in descending
id order 103, 102, 100 (each record flushed right after being written),
the appended records are exactly 103, 102, 100 in that order, and no
fetch is ever issued for the absent id 101. -/
theorem claim6_archive_order :
    saveToMboxRun env6 100 103 =
      ([Event.fetch 103, Event.append 103, Event.flush,
        Event.fetch 102, Event.append 102, Event.flush,
        Event.fetch 100, Event.append 100, Event.flush], false) ∧
    (saveToMboxRun env6 100 103).1.filterMap appendedId = [103, 102, 100] ∧
    Event.fetch 101 ∉ (saveToMboxRun env6 100 103).1 := by
  refine ⟨by decide, by decide, by decide⟩

/-- Truth of the durability ordering on a trace: scanning left to right
with a flag recording whether an appended record is still unflushed, no
fetch event may occur while the flag is set. -/
def noFetchUnflushed : Bool → List Event → Bool
  | _, [] => true
  | dirty, Event.fetch _ :: r => !dirty && noFetchUnflushed dirty r
  | _, Event.append _ :: r => noFetchUnflushed true r
  | _, Event.flush :: r => noFetchUnflushed false r
  | dirty, Event.reconnectAttempt :: r => noFetchUnflushed dirty r

/-- Claim C8: in every run of the fetch loop, whatever the outcomes, no
ARTICLE request is issued while an appended record is still unflushed:
every appended record is flushed before the next fetch begins. -/
theorem claim8_flush_before_next_fetch (env : LoopEnv) :
    ∀ (ids : List Int) (rc : Nat),
      noFetchUnflushed false (runLoop env ids rc).1 = true := by
  intro ids
  induction ids with
  | nil => intro rc; simp [runLoop, noFetchUnflushed]
  | cons id rest ih =>
    intro rc
    by_cases hex : env.existing.contains id = true
    · cases har : articleResult (env.fetch id) with
      | none =>
        rw [runLoop_cons_err hex har]
        by_cases hrc : env.reconnect rc = true
        · rw [if_pos hrc]
          simpa [noFetchUnflushed] using ih (rc + 1)
        · rw [if_neg hrc]
          simp [noFetchUnflushed]
      | some content =>
        rw [runLoop_cons_some hex har]
        by_cases hc : content = ""
        · rw [if_pos hc]
          simpa [noFetchUnflushed] using ih rc
        · rw [if_neg hc]
          by_cases hk : keepArticle env.now env.startDate env.endDate content = true
          · rw [if_pos hk]
            simpa [noFetchUnflushed] using ih rc
          · rw [if_neg hk]
            simpa [noFetchUnflushed] using ih rc
    · rw [runLoop_cons_absent hex]
      exact ih rc

lemma runLoop_no_append_of_empty (env : LoopEnv) (N : Int)
    (hN : articleResult (env.fetch N) = some "") :
    ∀ (ids : List Int) (rc : Nat), Event.append N ∉ (runLoop env ids rc).1 := by
  intro ids
  induction ids with
  | nil => intro rc; simp [runLoop]
  | cons id rest ih =>
    intro rc
    by_cases hex : env.existing.contains id = true
    · cases har : articleResult (env.fetch id) with
      | none =>
        rw [runLoop_cons_err hex har]
        by_cases hrc : env.reconnect rc = true
        · rw [if_pos hrc]
          intro hmem
          rcases List.mem_cons.mp hmem with h1 | hmem
          · exact Event.noConfusion h1
          rcases List.mem_cons.mp hmem with h2 | hmem
          · exact Event.noConfusion h2
          · exact ih (rc + 1) hmem
        · rw [if_neg hrc]
          intro hmem
          rcases List.mem_cons.mp hmem with h1 | hmem
          · exact Event.noConfusion h1
          rcases List.mem_cons.mp hmem with h2 | hmem
          · exact Event.noConfusion h2
          · simp at hmem
      | some content =>
        rw [runLoop_cons_some hex har]
        by_cases hc : content = ""
        · rw [if_pos hc]
          intro hmem
          rcases List.mem_cons.mp hmem with h1 | hmem
          · exact Event.noConfusion h1
          · exact ih rc hmem
        · rw [if_neg hc]
          have hid : id ≠ N := by
            intro he
            rw [he, hN] at har
            exact hc (Option.some.inj har).symm
          by_cases hk : keepArticle env.now env.startDate env.endDate content = true
          · rw [if_pos hk]
            intro hmem
            rcases List.mem_cons.mp hmem with h1 | hmem
            · exact Event.noConfusion h1
            rcases List.mem_cons.mp hmem with h2 | hmem
            · exact hid (Event.append.inj h2).symm
            rcases List.mem_cons.mp hmem with h3 | hmem
            · exact Event.noConfusion h3
            · exact ih rc hmem
          · rw [if_neg hk]
            intro hmem
            rcases List.mem_cons.mp hmem with h1 | hmem
            · exact Event.noConfusion h1
            · exact ih rc hmem
    · rw [runLoop_cons_absent hex]
      exact ih rc

/-- Claim C9: an ARTICLE reply with a 220 status immediately followed by
the terminating lone-dot line yields empty joined content, no record is
ever appended for that id, and the loop continues past it. -/
theorem claim9_empty_article (env : LoopEnv) (id : Int) (s : String) (bl : List String)
    (hf : env.fetch id = ArticleOutcome.reply s bl)
    (h220 : begins s "220" = true)
    (hb : readBlock bl = some []) :
    articleResult (env.fetch id) = some "" ∧
    (∀ (ids : List Int) (rc : Nat), Event.append id ∉ (runLoop env ids rc).1) ∧
    (∀ (rest : List Int) (rc : Nat), env.existing.contains id = true →
      runLoop env (id :: rest) rc =
        (Event.fetch id :: (runLoop env rest rc).1, (runLoop env rest rc).2)) := by
  have hres : articleResult (env.fetch id) = some "" := by
    rw [hf]
    show (Article s bl).map Prod.fst = some ""
    rw [Article, if_pos h220, hb]
    rfl
  refine ⟨hres, runLoop_no_append_of_empty env id hres, ?_⟩
  intro rest rc hex
  rw [runLoop_cons_some hex hres, if_pos rfl]

/-- Environment for the witness of claim C9: every article replies 220
with an immediately terminated block. -/
def env9 : LoopEnv where
  fetch := fun _ => ArticleOutcome.reply "220 ok" ["."]
  reconnect := fun _ => true
  existing := [7]
  startDate := none
  endDate := none
  now := ⟨2026, 1, 1, 0, 0, 0⟩

/-- Claim C9 witness: the theorem applied to a concrete empty article. -/
theorem claim9_witness :
    articleResult (env9.fetch 7) = some "" ∧
    Event.append 7 ∉ (runLoop env9 [7] 0).1 :=
  ⟨(claim9_empty_article env9 7 "220 ok" ["."] rfl (by decide) (by decide)).1,
   (claim9_empty_article env9 7 "220 ok" ["."] rfl (by decide) (by decide)).2.1 [7] 0⟩

/-- Start bound of claim C3, the parse of the flag value 2021-01-01. -/
def startTs : Timestamp := ⟨2021, 1, 1, 0, 0, 0⟩

/-- End bound of claim C3, the parse of the flag value 2022-01-01. -/
def endTs : Timestamp := ⟨2022, 1, 1, 0, 0, 0⟩

/-- Article text whose Date header parses to 2020-12-31. -/
def contentDec2020 : String :=
  "From: someone\nDate:Thu, 31 Dec 2020 10:00:00 GMT\n\nbody text"

/-- Article text whose Date header parses to 2021-06-15. -/
def contentJun2021 : String :=
  "From: someone\nDate:Tue, 15 Jun 2021 10:00:00 GMT\n\nbody text"

/-- Article text with no Date header at all. -/
def contentNoDate : String :=
  "From: someone\nSubject: hi\n\nbody text"

/-- Article text whose Date header does not parse: `TrimPrefix` leaves the
space after the colon, and `time.Parse` rejects a value that does not
begin with the weekday name. -/
def contentBadDate : String :=
  "From: someone\nDate: Tue, 15 Jun 2021 10:00:00 GMT\n\nbody text"

/-- Environment for the counterexample of claim C3: one article with no
Date header fetched successfully during a run whose wall clock is
2022-06-01, after the configured end date. -/
def env3 : LoopEnv where
  fetch := fun _ =>
    ArticleOutcome.reply "220 ok" ["From: someone", "Subject: hi", "", "body text", "."]
  reconnect := fun _ => true
  existing := [100]
  startDate := some startTs
  endDate := some endTs
  now := ⟨2022, 6, 1, 12, 0, 0⟩

/-- Claim C3 counterexample: with start 2021-01-01 and end 2022-01-01, an
article with a missing Date header fetched during a run whose current
wall-clock time is 2022-06-01 is NOT included: its substituted timestamp
falls after the end bound, so no record is appended. -/
theorem claim3_counterexample :
    parseDateOnly "2021-01-01" = some startTs ∧
    parseDateOnly "2022-01-01" = some endTs ∧
    articleResult (env3.fetch 100) = some contentNoDate ∧
    (splitStr (Char.ofNat 10) contentNoDate).find? (fun line => begins line "Date:") = none ∧
    saveToMboxRun env3 100 100 = ([Event.fetch 100], false) := by
  refine ⟨by decide, by decide, by decide, by decide, by decide⟩

/-- Claim C3 (amended): with the inclusive range 2021-01-01 to 2022-01-01,
an article whose Date header gives 2020-12-31 is excluded and one dated
2021-06-15 is included, whatever the current time; an article with a
missing or unparsable Date header (the timestamp is taken from the first
header line with a Date: prefix, parsed with the fixed RFC 1123 layout)
gets the current wall-clock time as its timestamp and is therefore kept
exactly when the current time itself lies within the range — a run taking
place after the end date excludes it. -/
theorem claim3_date_filter :
    parseDateOnly "2021-01-01" = some startTs ∧
    parseDateOnly "2022-01-01" = some endTs ∧
    (∀ now : Timestamp,
      parseArticleDate now contentDec2020 = ⟨2020, 12, 31, 10, 0, 0⟩ ∧
      keepArticle now (some startTs) (some endTs) contentDec2020 = false) ∧
    (∀ now : Timestamp,
      parseArticleDate now contentJun2021 = ⟨2021, 6, 15, 10, 0, 0⟩ ∧
      keepArticle now (some startTs) (some endTs) contentJun2021 = true) ∧
    (∀ now : Timestamp,
      parseArticleDate now contentNoDate = now ∧
      keepArticle now (some startTs) (some endTs) contentNoDate =
        (!tsLt now startTs && !tsLt endTs now)) ∧
    (∀ now : Timestamp,
      parseArticleDate now contentBadDate = now ∧
      keepArticle now (some startTs) (some endTs) contentBadDate =
        (!tsLt now startTs && !tsLt endTs now)) := by
  refine ⟨by decide, by decide,
    fun now => ⟨rfl, rfl⟩, fun now => ⟨rfl, rfl⟩, fun now => ⟨rfl, rfl⟩,
    fun now => ⟨rfl, rfl⟩⟩

/-- Claim C7: with both credentials configured, `connect` sends the
identity line and then the secret line right after reading the greeting,
fails with the authentication error exactly when the reply to the second
step does not carry the 281 code, and on success additionally sends the
mode-selection command, discarding its reply. -/
theorem claim7_auth (username password g ur pr m : String)
    (hu : username ≠ "") (hp : password ≠ "") :
    (connect username password [g, ur, pr, m]).1.take 2 =
      ["AUTHINFO USER " ++ username, "AUTHINFO PASS " ++ password] ∧
    ((connect username password [g, ur, pr, m]).2 =
        Except.error ("authentication failed: " ++ pr) ↔
      begins pr "281" = false) ∧
    (begins pr "281" = true →
      (connect username password [g, ur, pr, m]).1 =
        ["AUTHINFO USER " ++ username, "AUTHINFO PASS " ++ password, "MODE READER"] ∧
      (connect username password [g, ur, pr, m]).2 = Except.ok ()) := by
  by_cases hb : begins pr "281" = true
  · have hc : connect username password [g, ur, pr, m] =
        (["AUTHINFO USER " ++ username, "AUTHINFO PASS " ++ password, "MODE READER"],
         Except.ok ()) := by
      simp only [connect]
      rw [if_pos (by simp [hu, hp]), if_neg (by simp [hb])]
    rw [hc]
    exact ⟨rfl, by simp [hb], fun _ => ⟨rfl, rfl⟩⟩
  · have hbf : begins pr "281" = false := by simpa using hb
    have hc : connect username password [g, ur, pr, m] =
        (["AUTHINFO USER " ++ username, "AUTHINFO PASS " ++ password],
         Except.error ("authentication failed: " ++ pr)) := by
      simp only [connect]
      rw [if_pos (by simp [hu, hp]), if_pos (by simp [hbf])]
    rw [hc]
    exact ⟨rfl, by simp [hbf], fun h => absurd h hb⟩

/-- Claim C7 witness: the theorem applied to a concrete successful
handshake. -/
theorem claim7_witness :
    (connect "alice" "secret" ["200 hi", "381 send pass", "281 welcome", "200 reader"]).1.take 2 =
      ["AUTHINFO USER " ++ "alice", "AUTHINFO PASS " ++ "secret"] ∧
    ((connect "alice" "secret" ["200 hi", "381 send pass", "281 welcome", "200 reader"]).2 =
        Except.error ("authentication failed: " ++ "281 welcome") ↔
      begins "281 welcome" "281" = false) ∧
    (begins "281 welcome" "281" = true →
      (connect "alice" "secret" ["200 hi", "381 send pass", "281 welcome", "200 reader"]).1 =
        ["AUTHINFO USER " ++ "alice", "AUTHINFO PASS " ++ "secret", "MODE READER"] ∧
      (connect "alice" "secret" ["200 hi", "381 send pass", "281 welcome", "200 reader"]).2 =
        Except.ok ()) :=
  claim7_auth "alice" "secret" "200 hi" "381 send pass" "281 welcome" "200 reader"
    (by decide) (by decide)

/-- Claim C10: in the shared block reader of both `Article` and
`GetHeaders`, every received line is whitespace-trimmed before the
terminator test and before being retained: any line that trims to a lone
dot terminates the block (lines after it are never read), and every
retained payload line carries no leading or trailing whitespace. -/
theorem claim10_trimmed_readers (pre rest : List String) (d : String)
    (hd : goTrimSpace d = ".")
    (hpre : ∀ l ∈ pre, goTrimSpace l ≠ ".") :
    readBlock (pre ++ d :: rest) = some (pre.map goTrimSpace) ∧
    (∀ l ∈ pre.map goTrimSpace, noEdgeSpace l = true) ∧
    (∀ resp, begins resp "220" = true →
      Article resp (pre ++ d :: rest) = some (joinLines (pre.map goTrimSpace), resp)) ∧
    (∀ resp, begins resp "224" = true →
      GetHeaders resp (pre ++ d :: rest) = some ((pre.map goTrimSpace).map lineId)) := by
  have hrb := readBlock_append_dot pre d rest hd hpre
  refine ⟨hrb, ?_, ?_, ?_⟩
  · intro l hl
    obtain ⟨x, _hx, hlx⟩ := List.mem_map.mp hl
    rw [← hlx]
    exact trimmed_noEdgeSpace x
  · intro resp h220
    rw [Article, if_pos h220, hrb]
    rfl
  · intro resp h224
    rw [GetHeaders, if_pos h224, hrb]
    rfl

/-- Claim C10 witness: the theorem applied to a concrete block whose
terminator is a dot surrounded by spaces and whose payload lines carry
edge whitespace. -/
theorem claim10_witness :
    readBlock ([" a b ", "x\t1"] ++ " . " :: ["after"]) =
      some ([" a b ", "x\t1"].map goTrimSpace) ∧
    (∀ l ∈ [" a b ", "x\t1"].map goTrimSpace, noEdgeSpace l = true) ∧
    (∀ resp, begins resp "220" = true →
      Article resp ([" a b ", "x\t1"] ++ " . " :: ["after"]) =
        some (joinLines ([" a b ", "x\t1"].map goTrimSpace), resp)) ∧
    (∀ resp, begins resp "224" = true →
      GetHeaders resp ([" a b ", "x\t1"] ++ " . " :: ["after"]) =
        some (([" a b ", "x\t1"].map goTrimSpace).map lineId)) :=
  claim10_trimmed_readers [" a b ", "x\t1"] ["after"] " . " (by decide) (by decide)

end UsenetArchiver
